import Mathlib

/-!
Verification of the BFT round-robin leader selection of
`chain-impl-mockchain/src/leadership/bft.rs`.

The embedding follows the Rust source closely:
  * `LeaderId` wraps a public key of the BFT signing algorithm
    (Ed25519Extended, a 32-byte public key).
  * `BftLeaderSelection` holds the ordered roster of leaders
    (the `Arc<Vec<LeaderId>>` of the chain settings is modelled by the
    underlying list of identities; sharing is not observable at the
    value level).
  * Rust machine integers are modelled by `Nat`: every arithmetic
    operation in the source (`%` on `u64`, widening casts `u32 → u64`,
    `usize → u64`) is overflow-free, so no `% 2^w` reduction is needed.
  * A Rust panic (out-of-bounds `Vec` indexing) is modelled by an outer
    `Option`: `none` is a panic, `some` a normal return.
-/

namespace Bft

/-- A public key of the BFT signing algorithm (`Ed25519Extended`).
Modelled from the spec: the key type lives in the `chain_crypto` crate,
outside the shown sources; it is an opaque fixed-width (32 byte)
credential, compared byte-for-byte. -/
structure PublicKey where
  bytes : List Nat
  deriving DecidableEq, Repr

/-- A well-formed credential: exactly 32 bytes, each a byte value. -/
def PublicKey.wf (pk : PublicKey) : Prop :=
  pk.bytes.length = 32 ∧ ∀ b ∈ pk.bytes, b < 256

instance (pk : PublicKey) : Decidable pk.wf := by
  unfold PublicKey.wf; infer_instance

/-- `LeaderId` from `bft.rs`: a newtype over the public key; equality is
credential equality (`derive(PartialEq, Eq)`). -/
structure LeaderId where
  key : PublicKey
  deriving DecidableEq, Repr

/-- `BftRoundRobinIndex` from `bft.rs`: a newtype over the `u64` index. -/
structure BftRoundRobinIndex where
  idx : Nat
  deriving DecidableEq, Repr

/-- `BlockDate` of the `block` module.  Modelled from the spec: a pair
(epoch index, slot-within-epoch index); `bft.rs` reads only `slot_id`. -/
structure BlockDate where
  epoch : Nat
  slot_id : Nat
  deriving DecidableEq, Repr

/-- The BFT leadership proof embedded in a header: carries the claimed
leader identity and a signature.  Modelled from the spec: the proof type
lives in the `block` module, outside the shown sources; `bft.rs` reads
only `leader_id`, the signature is checked elsewhere. -/
structure BftProof where
  leader_id : LeaderId
  signature : List Nat
  deriving DecidableEq, Repr

/-- The polymorphic proof attached to a block header.  Modelled from the
spec: a tagged union over proof kinds; one variant carries the BFT
proof, the others belong to other consensus modes. -/
inductive Proof where
  | noProof : Proof
  | bft : BftProof → Proof
  | genesisPraos : Proof
  deriving DecidableEq, Repr

/-- A block header, as read by `BftLeaderSelection::verify`: exposes its
block date and its leadership proof.  Modelled from the spec. -/
structure Header where
  block_date : BlockDate
  proof : Proof
  deriving DecidableEq, Repr

/-- `ErrorKind` of the `leadership` module (the two variants produced by
`bft.rs`). -/
inductive ErrorKind where
  | invalidLeader : ErrorKind
  | invalidLeaderSignature : ErrorKind
  deriving DecidableEq, Repr

/-- `Error::new(kind)` of the `leadership` module: an error holding its
kind. -/
structure Error where
  kind : ErrorKind
  deriving DecidableEq, Repr

/-- `Verification` of the `leadership` module: success or failure with
an error. -/
inductive Verification where
  | success : Verification
  | failure : Error → Verification
  deriving DecidableEq, Repr

/-- The chain settings, as read by `BftLeaderSelection::new`: the
ordered roster `settings.bft_leaders`.  Modelled from the spec (the
`Ledger`/settings types are outside the shown sources). -/
structure Settings where
  bft_leaders : List LeaderId
  deriving DecidableEq, Repr

/-- The ledger, as read by `BftLeaderSelection::new`.  Modelled from the
spec: only `ledger.settings` is consumed. -/
structure Ledger where
  settings : Settings
  deriving DecidableEq, Repr

/-- `BftLeaderSelection` from `bft.rs`: the round-robin roster
(`leaders: Arc<Vec<LeaderId>>`). -/
structure BftLeaderSelection where
  leaders : List LeaderId
  deriving DecidableEq, Repr

namespace BftLeaderSelection

/-- `BftLeaderSelection::new`: fails on an empty roster, otherwise wraps
the roster of the ledger settings. -/
def new (ledger : Ledger) : Option BftLeaderSelection :=
  if ledger.settings.bft_leaders.length = 0 then
    none
  else
    some { leaders := ledger.settings.bft_leaders }

/-- `BftLeaderSelection::number_of_leaders`. -/
def number_of_leaders (s : BftLeaderSelection) : Nat :=
  s.leaders.length

/-- `BftLeaderSelection::offset`: `block_number % number_of_leaders`.
In Lean, `n % 0 = n`, while the Rust `%` on `u64` panics on a zero
divisor; the panic case is unreachable from `get_leader_at` exactly when
the roster is non-empty, which the out-of-bounds `Option` in
`get_leader_at` captures. -/
def offset (s : BftLeaderSelection) (block_number : Nat) : BftRoundRobinIndex :=
  let max := s.number_of_leaders
  ⟨block_number % max⟩

/-- `BftLeaderSelection::get_leader_at`: looks the round-robin offset of
the date's slot up in the roster.  The outer `Option` models the Rust
panic of `self.leaders[ofs]` (and of `%` by zero, which panics on the
same inputs); a normal return is always `Except.ok`. -/
def get_leader_at (s : BftLeaderSelection) (date : BlockDate) :
    Option (Except Error LeaderId) :=
  if s.number_of_leaders = 0 then
    none
  else
    let ofs := (s.offset date.slot_id).idx
    (s.leaders.get? ofs).map Except.ok

/-- `BftLeaderSelection::verify`: pattern-matches the header's proof;
a BFT proof is compared against the expected round-robin leader, any
other proof kind fails with `InvalidLeaderSignature`. -/
def verify (s : BftLeaderSelection) (block_header : Header) :
    Option Verification :=
  match block_header.proof with
  | Proof.bft bft_proof =>
    match s.get_leader_at block_header.block_date with
    | some (Except.ok leader_at) =>
      if bft_proof.leader_id ≠ leader_at then
        some (Verification.failure ⟨ErrorKind.invalidLeader⟩)
      else
        some Verification.success
    | some (Except.error e) => some (Verification.failure e)
    | none => none
  | _ => some (Verification.failure ⟨ErrorKind.invalidLeaderSignature⟩)

end BftLeaderSelection

/-! ### Binary serialization of `LeaderId`

Modelled from the spec: `serialize_public_key` / `deserialize_public_key`
live in the `key` module and the `chain_crypto` crate, outside the shown
sources.  The spec fixes the encoding: the credential's fixed-width
(32-byte) public-key byte encoding, no length prefix, no framing;
deserialization fails with a `ReadError` on malformed bytes. -/

/-- `ReadError` of `chain_core::mempack`.  Modelled from the spec:
malformed bytes fail to produce a `LeaderId`. -/
inductive ReadError where
  | structureInvalid : ReadError
  deriving DecidableEq, Repr

/-- Modelled from the spec: `serialize` of `property::Serialize for
LeaderId` writes exactly the credential's fixed-width public-key bytes
(no length prefix, no framing). -/
def LeaderId.serialize (id : LeaderId) : List Nat :=
  id.key.bytes

/-- Modelled from the spec: `read` of `Readable for LeaderId`
(`deserialize_public_key`) consumes a fixed-width 32-byte public key
from the buffer and wraps it in `LeaderId`; any other shape is a
`ReadError`. -/
def LeaderId.read (buf : List Nat) : Except ReadError LeaderId :=
  if buf.length = 32 ∧ ∀ b ∈ buf, b < 256 then
    Except.ok ⟨⟨buf⟩⟩
  else
    Except.error ReadError.structureInvalid

/-! ### Text (bech32) encoding of `LeaderId`

Modelled from the spec: the `Bech32` implementation delegates to the
public key's own bech32 encoding in the `chain_crypto` crate, outside
the shown sources.  The spec fixes the shape: a checksummed,
human-auditable text form tagged with a fixed prefix identifying the
key algorithm; decoding fails with a `DecodeError` on wrong prefix,
checksum mismatch, or malformed payload. -/

/-- `Bech32Error` of `chain_crypto::bech32`.  Modelled from the spec:
wrong prefix, checksum mismatch, or malformed payload. -/
inductive Bech32Error where
  | wrongPrefix : Bech32Error
  | malformedPayload : Bech32Error
  | checksumMismatch : Bech32Error
  deriving DecidableEq, Repr

/-- The digit character of a value below 16: `0`–`9` for values below
ten, `a`–`f` for the rest (code points 48–57 and 97–102). -/
def hexDigit (n : Nat) : Char :=
  if n < 10 then Char.ofNat (48 + n) else Char.ofNat (87 + n % 16)

/-- The value of a digit character, `none` for any other character. -/
def hexVal (c : Char) : Option Nat :=
  let v := c.toNat
  if 48 ≤ v ∧ v ≤ 57 then some (v - 48)
  else if 97 ≤ v ∧ v ≤ 102 then some (v - 87)
  else none

/-- One byte as two digit characters. -/
def byteToHex (b : Nat) : List Char :=
  [hexDigit (b / 16), hexDigit (b % 16)]

/-- A byte string as its digit characters. -/
def bytesToHex (bs : List Nat) : List Char :=
  bs.flatMap byteToHex

/-- Parse digit characters back into bytes; fails on a stray character
or an odd-length input. -/
def hexToBytes : List Char → Option (List Nat)
  | [] => some []
  | c1 :: c2 :: rest => do
    let hi ← hexVal c1
    let lo ← hexVal c2
    let bs ← hexToBytes rest
    pure ((16 * hi + lo) :: bs)
  | [_] => none

/-- The checksum of the payload bytes. -/
def bech32Checksum (bs : List Nat) : Nat :=
  bs.sum % 256

/-- The human-readable prefix of a BFT leader identity
(`PublicKey::<Ed25519Extended>::BECH32_HRP`), followed by the separator. -/
def bech32Hrp : List Char :=
  ['e', 'd', '2', '5', '5', '1', '9', 'e', '_', 'p', 'k', '1']

/-- Modelled from the spec: `to_bech32_str` of `Bech32 for LeaderId` —
the fixed algorithm prefix, then the credential bytes in a
human-typeable data encoding, then a checksum over the payload. -/
def LeaderId.to_bech32_str (id : LeaderId) : List Char :=
  bech32Hrp ++ bytesToHex id.key.bytes ++ byteToHex (bech32Checksum id.key.bytes)

/-- Modelled from the spec: `try_from_bech32_str` of `Bech32 for
LeaderId` — rejects a string without the fixed prefix, a malformed or
wrongly-sized payload, or a checksum mismatch; otherwise rebuilds the
identity from the payload bytes. -/
def LeaderId.try_from_bech32_str (s : List Char) : Except Bech32Error LeaderId :=
  if s.take 12 ≠ bech32Hrp then
    Except.error Bech32Error.wrongPrefix
  else
    let rest := s.drop 12
    let data := rest.take (rest.length - 2)
    let chk := rest.drop (rest.length - 2)
    match hexToBytes data, hexToBytes chk with
    | some bytes, some [c] =>
      if bytes.length ≠ 32 then
        Except.error Bech32Error.malformedPayload
      else if c ≠ bech32Checksum bytes then
        Except.error Bech32Error.checksumMismatch
      else
        Except.ok ⟨⟨bytes⟩⟩
    | _, _ => Except.error Bech32Error.malformedPayload

/-! ### Sample identities for concrete evaluations -/

/-- A sample leader identity (full 32-byte credential). -/
def sampleA : LeaderId := ⟨⟨List.replicate 32 0⟩⟩

/-- A second, distinct sample leader identity. -/
def sampleB : LeaderId := ⟨⟨List.replicate 32 1⟩⟩

/-- A third, distinct sample leader identity. -/
def sampleC : LeaderId := ⟨⟨List.replicate 32 2⟩⟩

/-! ### Theorems -/

/-- Helper: on a non-empty roster, `get_leader_at` returns the roster
entry at `slot_id mod len(roster)`, wrapped in `Ok`. -/
theorem get_leader_at_eq (s : BftLeaderSelection) (date : BlockDate)
    (h : s.leaders ≠ []) :
    s.get_leader_at date =
      some (Except.ok (s.leaders.get
        ⟨date.slot_id % s.leaders.length,
         Nat.mod_lt _ (List.length_pos.mpr h)⟩)) := by
  have hlen : s.leaders.length ≠ 0 := fun h0 => h (List.length_eq_zero.mp h0)
  have hlt : date.slot_id % s.leaders.length < s.leaders.length :=
    Nat.mod_lt _ (Nat.pos_of_ne_zero hlen)
  simp only [BftLeaderSelection.get_leader_at, BftLeaderSelection.offset,
    BftLeaderSelection.number_of_leaders, hlen, if_neg, List.get?_eq_get hlt,
    Option.map_some]
  simp [hlen]

/-- **C1.** For every schedule built from a non-empty roster and every
block date, `get_leader_at` returns (without failing) the roster entry
at position `slot_id mod len(roster)`. -/
theorem get_leader_at_round_robin (s : BftLeaderSelection) (date : BlockDate)
    (h : s.leaders ≠ []) :
    s.get_leader_at date =
      some (Except.ok (s.leaders.get
        ⟨date.slot_id % s.leaders.length,
         Nat.mod_lt _ (List.length_pos.mpr h)⟩)) :=
  get_leader_at_eq s date h

/-- Witness for C1: on the roster `[A, B]` at slot 5 the leader is `B`
(`5 mod 2 = 1`). -/
theorem get_leader_at_round_robin_witness :
    BftLeaderSelection.get_leader_at ⟨[sampleA, sampleB]⟩ ⟨0, 5⟩ =
      some (Except.ok sampleB) := by
  have h := get_leader_at_round_robin ⟨[sampleA, sampleB]⟩ ⟨0, 5⟩ (by simp)
  exact h

/-- **C2.** On a header carrying a BFT proof, `verify` succeeds exactly
when the proof's embedded leader identity equals the round-robin leader
of the header's slot, and fails with `InvalidLeader` when it differs. -/
theorem verify_bft_proof (s : BftLeaderSelection) (date : BlockDate)
    (p : BftProof) (expected : LeaderId) (h : s.leaders ≠ [])
    (hexp : s.leaders.get? (date.slot_id % s.leaders.length) = some expected) :
    s.verify ⟨date, Proof.bft p⟩ =
      some (if p.leader_id = expected then Verification.success
            else Verification.failure ⟨ErrorKind.invalidLeader⟩) := by
  have hr := get_leader_at_eq s date h
  have hlt : date.slot_id % s.leaders.length < s.leaders.length :=
    Nat.mod_lt _ (List.length_pos.mpr h)
  have hget : s.leaders.get ⟨date.slot_id % s.leaders.length, hlt⟩ = expected := by
    rw [List.get?_eq_get hlt] at hexp
    exact Option.some_injective _ hexp
  simp only [BftLeaderSelection.verify, hr, hget]
  by_cases hc : p.leader_id = expected <;> simp [hc]

/-- Witness for C2 (the spec's example): roster `[A, B, C]`; at slot 0 a
proof by `A` verifies `Success`, a proof by `B` fails `InvalidLeader`,
and at slot 3 a proof by `A` verifies `Success`. -/
theorem verify_bft_proof_witness :
    BftLeaderSelection.verify ⟨[sampleA, sampleB, sampleC]⟩
        ⟨⟨0, 0⟩, Proof.bft ⟨sampleA, []⟩⟩ = some Verification.success ∧
    BftLeaderSelection.verify ⟨[sampleA, sampleB, sampleC]⟩
        ⟨⟨0, 0⟩, Proof.bft ⟨sampleB, []⟩⟩ =
      some (Verification.failure ⟨ErrorKind.invalidLeader⟩) ∧
    BftLeaderSelection.verify ⟨[sampleA, sampleB, sampleC]⟩
        ⟨⟨0, 3⟩, Proof.bft ⟨sampleA, []⟩⟩ = some Verification.success := by
  refine ⟨?_, ?_, ?_⟩
  · have h := verify_bft_proof ⟨[sampleA, sampleB, sampleC]⟩ ⟨0, 0⟩
      ⟨sampleA, []⟩ sampleA (by simp) (by decide)
    simpa using h
  · have h := verify_bft_proof ⟨[sampleA, sampleB, sampleC]⟩ ⟨0, 0⟩
      ⟨sampleB, []⟩ sampleA (by simp) (by decide)
    rw [h]
    simp [sampleA, sampleB]
  · have h := verify_bft_proof ⟨[sampleA, sampleB, sampleC]⟩ ⟨0, 3⟩
      ⟨sampleA, []⟩ sampleA (by simp) (by decide)
    simpa using h

/-- **C3.** On a header whose proof is not the BFT variant, `verify`
fails with `InvalidLeaderSignature`, for every roster and every slot. -/
theorem verify_non_bft_proof (s : BftLeaderSelection) (hdr : Header)
    (h : ∀ p : BftProof, hdr.proof ≠ Proof.bft p) :
    s.verify hdr =
      some (Verification.failure ⟨ErrorKind.invalidLeaderSignature⟩) := by
  unfold BftLeaderSelection.verify
  cases hp : hdr.proof with
  | noProof => rfl
  | bft p => exact absurd hp (h p)
  | genesisPraos => rfl

/-- Witness for C3: a header with the genesis-praos proof fails with
`InvalidLeaderSignature` even on an empty roster. -/
theorem verify_non_bft_proof_witness :
    BftLeaderSelection.verify ⟨[]⟩ ⟨⟨0, 0⟩, Proof.genesisPraos⟩ =
      some (Verification.failure ⟨ErrorKind.invalidLeaderSignature⟩) :=
  verify_non_bft_proof ⟨[]⟩ ⟨⟨0, 0⟩, Proof.genesisPraos⟩
    (fun p hp => by cases hp)

/-- **C4.** `new` returns `none` exactly when the ledger's leader roster
is empty, and for every non-empty roster returns a schedule holding
exactly that roster. -/
theorem new_none_iff_empty (ledger : Ledger) :
    (BftLeaderSelection.new ledger = none ↔ ledger.settings.bft_leaders = []) ∧
    (ledger.settings.bft_leaders ≠ [] →
      BftLeaderSelection.new ledger = some ⟨ledger.settings.bft_leaders⟩) := by
  constructor
  · simp [BftLeaderSelection.new, List.length_eq_zero]
  · intro h
    simp [BftLeaderSelection.new, List.length_eq_zero, h]

/-- Witness for C4: `new` on an empty roster is `none`, on `[A]` it is
the schedule over `[A]`. -/
theorem new_none_iff_empty_witness :
    BftLeaderSelection.new ⟨⟨[]⟩⟩ = none ∧
    BftLeaderSelection.new ⟨⟨[sampleA]⟩⟩ = some ⟨[sampleA]⟩ :=
  ⟨(new_none_iff_empty ⟨⟨[]⟩⟩).1.mpr rfl,
   (new_none_iff_empty ⟨⟨[sampleA]⟩⟩).2 (by simp)⟩

/-- **C5.** Leader selection reads only the slot-within-epoch index of
the block date: two dates with equal `slot_id` (and arbitrary epochs)
give the same `get_leader_at` result. -/
theorem get_leader_at_ignores_epoch (s : BftLeaderSelection)
    (d1 d2 : BlockDate) (h : d1.slot_id = d2.slot_id) :
    s.get_leader_at d1 = s.get_leader_at d2 := by
  simp [BftLeaderSelection.get_leader_at, BftLeaderSelection.offset, h]

/-- Witness for C5: epochs 0 and 99 at slot 4 select the same leader. -/
theorem get_leader_at_ignores_epoch_witness :
    BftLeaderSelection.get_leader_at ⟨[sampleA, sampleB]⟩ ⟨0, 4⟩ =
      BftLeaderSelection.get_leader_at ⟨[sampleA, sampleB]⟩ ⟨99, 4⟩ :=
  get_leader_at_ignores_epoch ⟨[sampleA, sampleB]⟩ ⟨0, 4⟩ ⟨99, 4⟩ rfl

/-- **C6.** Round-robin selection is periodic with period the roster
length: slot `slot + len(roster)` selects the same leader as slot
`slot`. -/
theorem get_leader_at_periodic (s : BftLeaderSelection) (e slot : Nat) :
    s.get_leader_at ⟨e, slot + s.leaders.length⟩ = s.get_leader_at ⟨e, slot⟩ := by
  simp [BftLeaderSelection.get_leader_at, BftLeaderSelection.offset,
    BftLeaderSelection.number_of_leaders, Nat.add_mod_right]

/-- **C7.** Under the construction precondition (non-empty roster), the
modulus used by `offset` is at least 1 and the round-robin index is
strictly below the roster length: neither the division by zero nor an
out-of-bounds roster access is reachable. -/
theorem offset_in_bounds (s : BftLeaderSelection) (block_number : Nat)
    (h : s.leaders ≠ []) :
    1 ≤ s.number_of_leaders ∧
      (s.offset block_number).idx < s.leaders.length := by
  have hpos : 0 < s.leaders.length := List.length_pos.mpr h
  exact ⟨hpos, Nat.mod_lt _ hpos⟩

/-- Witness for C7: on the roster `[A]` at block number 7 the modulus is
1 and the index is in bounds. -/
theorem offset_in_bounds_witness :
    1 ≤ BftLeaderSelection.number_of_leaders ⟨[sampleA]⟩ ∧
      (BftLeaderSelection.offset ⟨[sampleA]⟩ 7).idx <
        (BftLeaderSelection.mk [sampleA]).leaders.length :=
  offset_in_bounds ⟨[sampleA]⟩ 7 (by simp)

/-- **C10.** For every schedule with a non-empty roster and every block
date, `get_leader_at` returns `Ok` — it has no failing path — so the
branch of `verify` that propagates a `get_leader_at` error is
unreachable. -/
theorem get_leader_at_always_ok (s : BftLeaderSelection) (date : BlockDate)
    (h : s.leaders ≠ []) :
    (∃ l, s.get_leader_at date = some (Except.ok l)) ∧
      ∀ e : Error, s.get_leader_at date ≠ some (Except.error e) := by
  have hr := get_leader_at_eq s date h
  refine ⟨⟨_, hr⟩, fun e he => ?_⟩
  rw [hr] at he
  simp at he

/-- Witness for C10: on the roster `[A, B]` at slot 3 the call returns
`Ok` and no error. -/
theorem get_leader_at_always_ok_witness :
    (∃ l, BftLeaderSelection.get_leader_at ⟨[sampleA, sampleB]⟩ ⟨2, 3⟩ =
        some (Except.ok l)) ∧
      ∀ e : Error,
        BftLeaderSelection.get_leader_at ⟨[sampleA, sampleB]⟩ ⟨2, 3⟩ ≠
          some (Except.error e) :=
  get_leader_at_always_ok ⟨[sampleA, sampleB]⟩ ⟨2, 3⟩ (by simp)

/-- **C8.** Binary serialization of a `LeaderId` round-trips exactly:
reading back the serialized bytes of a well-formed identity succeeds
and returns an equal identity. -/
theorem leader_id_serialize_round_trip (id : LeaderId) (h : id.key.wf) :
    LeaderId.read (LeaderId.serialize id) = Except.ok id := by
  have h' : (id.key.bytes).length = 32 ∧ ∀ b ∈ id.key.bytes, b < 256 := h
  unfold LeaderId.read LeaderId.serialize
  rw [if_pos h']

/-- Witness for C8: the identity with the all-zero 32-byte credential
round-trips through the binary encoding. -/
theorem leader_id_serialize_round_trip_witness :
    LeaderId.read (LeaderId.serialize sampleA) = Except.ok sampleA :=
  leader_id_serialize_round_trip sampleA (by decide)

/-- Helper: a digit character decodes back to its value. -/
theorem hexVal_hexDigit : ∀ n < 16, hexVal (hexDigit n) = some n := by
  decide

/-- Helper: parsing the two digit characters of a byte at the head of
the input yields that byte. -/
theorem hexToBytes_byteToHex (b : Nat) (hb : b < 256) (rest : List Char) :
    hexToBytes (byteToHex b ++ rest) =
      (hexToBytes rest).map (fun bs => b :: bs) := by
  have h1 : b / 16 < 16 := Nat.div_lt_of_lt_mul (by omega)
  have h2 : b % 16 < 16 := Nat.mod_lt _ (by omega)
  have hstep : byteToHex b ++ rest =
      hexDigit (b / 16) :: hexDigit (b % 16) :: rest := rfl
  rw [hstep, hexToBytes]
  simp only [hexVal_hexDigit _ h1, hexVal_hexDigit _ h2, Option.some_bind,
    Option.bind_eq_bind]
  rw [Nat.div_add_mod b 16]
  cases hexToBytes rest <;> rfl

/-- Helper: the data encoding of a byte string parses back to the byte
string. -/
theorem hexToBytes_bytesToHex (bs : List Nat) (h : ∀ b ∈ bs, b < 256) :
    hexToBytes (bytesToHex bs) = some bs := by
  induction bs with
  | nil => rfl
  | cons b tl ih =>
    have hb : b < 256 := h b (by simp)
    have htl : ∀ x ∈ tl, x < 256 := fun x hx => h x (by simp [hx])
    have : bytesToHex (b :: tl) = byteToHex b ++ bytesToHex tl := by
      simp [bytesToHex]
    rw [this, hexToBytes_byteToHex b hb, ih htl]
    rfl

/-- Helper: the data encoding of a byte string has two characters per
byte. -/
theorem bytesToHex_length (bs : List Nat) :
    (bytesToHex bs).length = 2 * bs.length := by
  induction bs with
  | nil => rfl
  | cons b tl ih =>
    have : bytesToHex (b :: tl) = byteToHex b ++ bytesToHex tl := by
      simp [bytesToHex]
    rw [this]
    simp [byteToHex, ih]
    omega

/-- **C9.** The text encoding of a `LeaderId` round-trips exactly:
decoding the encoded string of a well-formed identity succeeds and
returns an equal identity. -/
theorem leader_id_bech32_round_trip (id : LeaderId) (h : id.key.wf) :
    LeaderId.try_from_bech32_str (LeaderId.to_bech32_str id) = Except.ok id := by
  obtain ⟨hlen, hbytes⟩ := h
  have hchk : bech32Checksum id.key.bytes < 256 := Nat.mod_lt _ (by omega)
  have hdata : (bytesToHex id.key.bytes).length = 64 := by
    rw [bytesToHex_length, hlen]
  have hshape : LeaderId.to_bech32_str id =
      bech32Hrp ++ (bytesToHex id.key.bytes ++
        byteToHex (bech32Checksum id.key.bytes)) := by
    rw [LeaderId.to_bech32_str, List.append_assoc]
  have hhrp : bech32Hrp.length = 12 := rfl
  have htake : (LeaderId.to_bech32_str id).take 12 = bech32Hrp := by
    rw [hshape, ← hhrp, List.take_left]
  have hdrop : (LeaderId.to_bech32_str id).drop 12 =
      bytesToHex id.key.bytes ++ byteToHex (bech32Checksum id.key.bytes) := by
    rw [hshape, ← hhrp, List.drop_left]
  have hlen2 : (bytesToHex id.key.bytes ++
      byteToHex (bech32Checksum id.key.bytes)).length - 2 = 64 := by
    rw [List.length_append, hdata]
    rfl
  have htake64 : (bytesToHex id.key.bytes ++
      byteToHex (bech32Checksum id.key.bytes)).take 64 =
      bytesToHex id.key.bytes := by
    rw [← hdata, List.take_left]
  have hdrop64 : (bytesToHex id.key.bytes ++
      byteToHex (bech32Checksum id.key.bytes)).drop 64 =
      byteToHex (bech32Checksum id.key.bytes) := by
    rw [← hdata, List.drop_left]
  have hdec : hexToBytes (bytesToHex id.key.bytes) = some id.key.bytes :=
    hexToBytes_bytesToHex id.key.bytes hbytes
  have hdecChk : hexToBytes (byteToHex (bech32Checksum id.key.bytes)) =
      some [bech32Checksum id.key.bytes] := by
    have h2 := hexToBytes_byteToHex (bech32Checksum id.key.bytes) hchk []
    rw [List.append_nil] at h2
    rw [h2]
    rfl
  rw [LeaderId.try_from_bech32_str, if_neg (fun hc => hc htake)]
  simp only [hdrop, hlen2, htake64, hdrop64, hdec, hdecChk, hlen, ne_eq]
  simp only [not_true, if_false, ite_false]

/-- Witness for C9: the identity with the all-zero 32-byte credential
round-trips through the text encoding. -/
theorem leader_id_bech32_round_trip_witness :
    LeaderId.try_from_bech32_str (LeaderId.to_bech32_str sampleA) =
      Except.ok sampleA :=
  leader_id_bech32_round_trip sampleA (by decide)

end Bft
